import Mathlib

/-!
Shallow embedding of `src/app/main.py` ("Chaos Kakeibo API", a FastAPI
household-expense ledger).

Modelling conventions:
* A stored record (a Python dict) is modelled by `Kakeibo.Record`; a field that
  may be absent from the dict is an `Option`.  `id`, `date`, `category` and
  `description` are strings wherever the program creates them, so they are
  modelled as `Option String`; `amount` may be a string, a JSON number or JSON
  null, modelled by `Kakeibo.Val`.
* Python floats are modelled as exact rationals (`ℚ`); `float(...)` applied to a
  string is modelled by `parseDecimal` (finite decimal/exponent literals), and
  `str(...)` applied to a float by `pyFloatStr` (exact decimal printing, the
  behaviour of Python's shortest-roundtrip repr on values that are exactly
  representable).
* `uuid.uuid4()` is nondeterministic; it is modelled by an explicit stream of
  fresh ids `fid : Nat → String` passed to the operations that generate ids.
* An HTTP handler that can raise (`HTTPException`, or an uncaught exception
  turned into a 500 by the global handler) is modelled with `Except String`;
  `create_entries` additionally mutates the global `DATA` even on the error
  path, so its outcome type `CreateResult` carries the new store in both cases.
-/

namespace Kakeibo

/-- A JSON-ish value as it can appear in the `amount` field of a record. -/
inductive Val where
  | str (s : String)
  | num (q : ℚ)
  | null
deriving DecidableEq

/-- One raw ledger record (a Python dict); `none` means the key is absent. -/
structure Record where
  id : Option String
  date : Option String
  category : Option String
  descr : Option String
  amount : Option Val
deriving DecidableEq

/-- Python truthiness of an optional string (absent and `""` are falsy). -/
def truthyOptStr : Option String → Bool
  | none => false
  | some s => s ≠ ""

/-- Python truthiness of a `Val`. -/
def truthyVal : Val → Bool
  | .str s => s ≠ ""
  | .num q => q ≠ 0
  | .null => false

/-- Python truthiness of an optional `amount` value. -/
def truthyOptVal : Option Val → Bool
  | none => false
  | some v => truthyVal v

/-- Digits to a natural number (`cs` assumed to be decimal digits). -/
def digitsToNat (cs : List Char) : Nat :=
  cs.foldl (fun a c => 10 * a + (c.toNat - 48)) 0

/-- Split a char list at the first `e`/`E` (exponent marker of a float literal). -/
def splitExpMarker : List Char → List Char × Option (List Char)
  | [] => ([], none)
  | c :: t =>
    if c = 'e' ∨ c = 'E' then ([], some t)
    else
      let r := splitExpMarker t
      (c :: r.1, r.2)

/-- Parse the digits of an exponent part, with optional sign. -/
def parseExpPart (cs : List Char) : Option Int :=
  match cs with
  | '-' :: t => if t ≠ [] ∧ t.all Char.isDigit then some (-(digitsToNat t : Int)) else none
  | '+' :: t => if t ≠ [] ∧ t.all Char.isDigit then some (digitsToNat t : Int) else none
  | t => if t ≠ [] ∧ t.all Char.isDigit then some (digitsToNat t : Int) else none

/-- Parse an unsigned mantissa `digits[.digits]` (at least one digit somewhere). -/
def parseMantissa (cs : List Char) : Option ℚ :=
  let ip := cs.takeWhile Char.isDigit
  match cs.dropWhile Char.isDigit with
  | [] => if ip = [] then none else some (digitsToNat ip : ℚ)
  | '.' :: fp =>
    if fp.all Char.isDigit ∧ (ip ≠ [] ∨ fp ≠ []) then
      some ((digitsToNat ip : ℚ) + (digitsToNat fp : ℚ) / (10 : ℚ) ^ fp.length)
    else none
  | _ => none

/-- Model of Python `float(s)` on a string: optional surrounding spaces, optional
sign, decimal mantissa, optional decimal exponent.  (The model does not cover
`inf`/`nan` or underscore separators, which no claim exercises.) -/
def parseDecimal (s : String) : Option ℚ :=
  let cs := ((s.toList.dropWhile (· = ' ')).reverse.dropWhile (· = ' ')).reverse
  let signAndRest : ℚ × List Char :=
    match cs with
    | '-' :: t => (-1, t)
    | '+' :: t => (1, t)
    | t => (1, t)
  let ms := splitExpMarker signAndRest.2
  match parseMantissa ms.1 with
  | none => none
  | some m =>
    match ms.2 with
    | none => some (signAndRest.1 * m)
    | some ecs =>
      match parseExpPart ecs with
      | none => none
      | some e => some (signAndRest.1 * m * (10 : ℚ) ^ e)

/-- Smallest `k < 40` with `d ∣ 10 ^ k` (exists for every denominator of the
form `2 ^ a * 5 ^ b` arising from decimal inputs). -/
def pow10Exp (d : Nat) : Option Nat :=
  (List.range 40).find? (fun k => 10 ^ k % d = 0)

/-- Left-pad a digit string with zeros to length `k`. -/
def padZeros (s : String) (k : Nat) : String :=
  String.mk (List.replicate (k - s.length) '0') ++ s

/-- Model of Python `str(x)` on a float holding the exact value `q`: integral
values print as `n.0`, other exactly-decimal values print their shortest exact
decimal expansion. -/
def pyFloatStr (q : ℚ) : String :=
  if q.den = 1 then toString q.num ++ ".0"
  else
    match pow10Exp q.den with
    | some k =>
      let n : Nat := q.num.natAbs * ((10 ^ k) / q.den)
      (if q.num < 0 then "-" else "") ++ toString (n / 10 ^ k) ++ "." ++
        padZeros (toString (n % 10 ^ k)) k
    | none => "?"

/-- Round half to even to an integer (Python `round` tie behaviour). -/
def rndHalfEven (x : ℚ) : Int :=
  if x - ⌊x⌋ < 1 / 2 then ⌊x⌋
  else if 1 / 2 < x - ⌊x⌋ then ⌊x⌋ + 1
  else if ⌊x⌋ % 2 = 0 then ⌊x⌋ else ⌊x⌋ + 1

/-- Model of Python `round(x, 2)` on exact values. -/
def round2 (x : ℚ) : ℚ := (rndHalfEven (x * 100) : ℚ) / 100

/-- Add `q` to key `k` of an insertion-ordered association list
(`categories[k] = categories.get(k, 0) + q`). -/
def updCat (l : List (String × ℚ)) (k : String) (q : ℚ) : List (String × ℚ) :=
  match l with
  | [] => [(k, q)]
  | p :: rest => if p.1 = k then (p.1, p.2 + q) :: rest else p :: updCat rest k q

/-- Lookup in an association list. -/
def lookupCat (l : List (String × ℚ)) (k : String) : Option ℚ :=
  match l with
  | [] => none
  | p :: rest => if p.1 = k then some p.2 else lookupCat rest k

/-! ### `create_entries` (POST /entries, lines 94-111) -/

/-- Models `entry.setdefault("id", str(uuid.uuid4()))` with fresh id `fid`. -/
def withId (fid : String) (e : Record) : Record :=
  { e with id := some (e.id.getD fid) }

/-- Models the two `setdefault` calls for category and description. -/
def withCatDesc (e : Record) : Record :=
  { e with category := some (e.category.getD "未分類"),
           descr := some (e.descr.getD "") }

/-- The validation check `not entry.get("date") or not entry.get("amount")`
passes (record is accepted). -/
def goodRecord (e : Record) : Bool :=
  truthyOptStr e.date && truthyOptVal e.amount

/-- The 400 message raised by `create_entries`. -/
def requiredMsg : String := "date と amount は必須です"

/-- Outcome of `create_entries`: the handler mutates the global `DATA` even when
it raises, so both constructors carry the new store. -/
inductive CreateResult where
  | ok (newData created : List Record)
  | err (newData : List Record) (msg : String)
deriving DecidableEq

/-- The store held in a `CreateResult`. -/
def CreateResult.newStore : CreateResult → List Record
  | .ok d _ => d
  | .err d _ => d

/-- Whether a `CreateResult` is the raised-exception case. -/
def CreateResult.isErr : CreateResult → Bool
  | .ok _ _ => false
  | .err _ _ => true

/-- The `for entry in entries` loop of `create_entries`: per record, default the
id, validate date/amount truthiness, default category/description, append to
`DATA` and to `created`.  On failure the exception carries the `DATA` built so
far; the 10k trim is applied only after a completed loop. -/
def createLoop (fid : Nat → String) (k : Nat) (data created : List Record) :
    List Record → Except (List Record × String) (List Record × List Record)
  | [] => .ok (data, created)
  | e :: rest =>
    let e1 := withId (fid k) e
    if goodRecord e1 then
      let e2 := withCatDesc e1
      createLoop fid (k + 1) (data ++ [e2]) (created ++ [e2]) rest
    else .error (data, requiredMsg)

/-- Models `if len(DATA) > 10_000: DATA[:] = DATA[-10_000:]`. -/
def trim10k (l : List Record) : List Record :=
  if l.length > 10000 then l.drop (l.length - 10000) else l

/-- Models `create_entries(entries)` acting on store `data` with fresh-id stream `fid`. -/
def createEntries (fid : Nat → String) (data batch : List Record) : CreateResult :=
  match createLoop fid 0 data [] batch with
  | .error p => .err p.1 p.2
  | .ok p => .ok (trim10k p.1) p.2

/-! ### `filter_entries` (GET /entries, lines 120-180) -/

/-- Models `_is_valid_date_format`: the regex `^\d{4}-\d{2}-\d{2}$` (ASCII digits; the
Python regex would also admit Unicode digits and a trailing newline, which no
claim exercises). -/
def isValidDateFormat (s : String) : Bool :=
  match s.toList with
  | [a, b, c, d, h1, e, f, h2, g, i] =>
    [a, b, c, d, e, f, g, i].all Char.isDigit && h1 = '-' && h2 = '-'
  | _ => false

/-- Code-point lexicographic strict comparison of char lists (the order Python
uses for `str < str`). -/
def charListLt : List Char → List Char → Bool
  | _, [] => false
  | [], _ :: _ => true
  | a :: as, b :: bs => a < b || (a = b && charListLt as bs)

/-- Python `a < b` on strings. -/
def pyStrLt (a b : String) : Bool := charListLt a.toList b.toList

/-- Python `a <= b` on strings (a total order, so `¬ b < a`). -/
def pyStrLe (a b : String) : Bool := !pyStrLt b a

/-- The three `continue` conditions of the filter loop: keep a record iff no
provided (truthy) bound rejects it. -/
def keepRecord (dateFrom dateTo category : Option String) (e : Record) : Bool :=
  !(truthyOptStr dateFrom && pyStrLt (e.date.getD "") (dateFrom.getD "")) &&
  !(truthyOptStr dateTo && pyStrLt (dateTo.getD "") (e.date.getD "")) &&
  !(truthyOptStr category && e.category != category)

/-- The guarded amount coercion used in both aggregation loops of
`filter_entries`: `entry.get("amount", 0)` then skip `None`/`""`, then
`float(...)`; `none` means the record is skipped (guard failed or
`float` raised). -/
def amtContrib : Option Val → Option ℚ
  | none => some 0
  | some .null => none
  | some (.num q) => some q
  | some (.str s) => if s = "" then none else parseDecimal s

/-- The `total_amount` accumulation loop of `filter_entries`. -/
def totalLoop : List Record → ℚ
  | [] => 0
  | e :: rest =>
    match amtContrib e.amount with
    | some q => q + totalLoop rest
    | none => totalLoop rest

/-- The per-category accumulation loop of `filter_entries`
(`cat = entry.get("category", "未分類")`, skipping invalid amounts). -/
def catLoop : List Record → List (String × ℚ) → List (String × ℚ)
  | [], acc => acc
  | e :: rest, acc =>
    match amtContrib e.amount with
    | some q => catLoop rest (updCat acc (e.category.getD "未分類") q)
    | none => catLoop rest acc

/-- The `EntrySummary` response model (categories as an insertion-ordered
association list, modelling the Python dict). -/
structure EntrySummary where
  total : Nat
  total_amount : String
  categories : List (String × ℚ)
  entries : List Record
deriving DecidableEq

/-- Models `filter_entries(date_from, date_to, category)` on store `data`. -/
def filterEntries (dateFrom dateTo category : Option String) (data : List Record) :
    Except String EntrySummary :=
  if truthyOptStr dateFrom && !isValidDateFormat (dateFrom.getD "") then
    .error "date_from must be in YYYY-MM-DD format"
  else if truthyOptStr dateTo && !isValidDateFormat (dateTo.getD "") then
    .error "date_to must be in YYYY-MM-DD format"
  else
    let filtered := data.filter (keepRecord dateFrom dateTo category)
    .ok { total := filtered.length,
          total_amount := pyFloatStr (totalLoop filtered),
          categories := catLoop filtered [],
          entries := filtered }

/-! ### `get_summary` (GET /summary/{year_month}, lines 208-231) -/

/-- Prefix test on code points, modelling `str.startswith`. -/
def strStarts (s pre : String) : Bool :=
  pre.toList.isPrefixOf s.toList

/-- Models `[e for e in DATA if e["date"].startswith(year_month)]`; `e["date"]` raises
`KeyError` (→ 500) when the key is absent, for matching and non-matching
records alike. -/
def selectMonthly (ym : String) : List Record → Except String (List Record)
  | [] => .ok []
  | e :: rest =>
    match e.date with
    | none => .error "KeyError: date"
    | some d => do
      let m ← selectMonthly ym rest
      pure (if strStarts d ym then e :: m else m)

/-- Models `float(e.get("amount", 0) or 0)`: absent/falsy amounts coerce to `0`; a
truthy string that `float` cannot parse raises (→ 500). -/
def coerceAmt : Option Val → Except String ℚ
  | none => .ok 0
  | some .null => .ok 0
  | some (.num q) => .ok q
  | some (.str s) =>
    if s = "" then .ok 0
    else
      match parseDecimal s with
      | some q => .ok q
      | none => .error "ValueError: could not convert string to float"

/-- Models `sum(float(e.get("amount", 0) or 0) for e in monthly)`. -/
def sumAmounts : List Record → Except String ℚ
  | [] => .ok 0
  | e :: rest => do
    let a ← coerceAmt e.amount
    let s ← sumAmounts rest
    pure (a + s)

/-- The category loop of `get_summary`; `e["category"]` raises `KeyError`
(→ 500) when absent. -/
def catAggStrict : List Record → List (String × ℚ) → Except String (List (String × ℚ))
  | [], acc => .ok acc
  | e :: rest, acc => do
    let a ← coerceAmt e.amount
    match e.category with
    | none => .error "KeyError: category"
    | some c => catAggStrict rest (updCat acc c a)

/-- Stable insert for descending order by amount: a later element is placed
after all earlier elements with a greater-or-equal key. -/
def insertDesc (p : String × ℚ) : List (String × ℚ) → List (String × ℚ)
  | [] => [p]
  | q :: rest => if q.2 ≤ p.2 then p :: q :: rest else q :: insertDesc p rest

/-- Models `sorted(categories.items(), key=lambda i: i[1], reverse=True)`: Python's
stable sort, descending by amount (stable insertion sort gives the same list). -/
def sortCatsDesc : List (String × ℚ) → List (String × ℚ)
  | [] => []
  | p :: rest => insertDesc p (sortCatsDesc rest)

/-- One element of the summary's `categories` output. -/
structure SummaryCat where
  category : String
  amount : String
  percentage : String
deriving DecidableEq

/-- The JSON body returned by `get_summary`. -/
structure SummaryResp where
  year_month : String
  total_entries : Nat
  total_amount : String
  categories : List SummaryCat
deriving DecidableEq

/-- Serialize one sorted category pair:
`str(round(v / total_amount * 100, 2)) if total_amount else "0"`. -/
def mkSummaryCat (total : ℚ) (p : String × ℚ) : SummaryCat :=
  { category := p.1,
    amount := pyFloatStr p.2,
    percentage := if total = 0 then "0" else pyFloatStr (round2 (p.2 / total * 100)) }

/-- Models `get_summary(year_month)` on store `data`. -/
def getSummary (ym : String) (data : List Record) : Except String SummaryResp :=
  if ym.toList.length ≠ 7 ∨ ym.toList.getD 4 ' ' ≠ '-' then
    .error "year_month は YYYY-MM 形式で入力してください"
  else do
    let monthly ← selectMonthly ym data
    let total ← sumAmounts monthly
    let cats ← catAggStrict monthly []
    pure { year_month := ym,
           total_entries := monthly.length,
           total_amount := pyFloatStr total,
           categories := (sortCatsDesc cats).map (mkSummaryCat total) }

/-! ### `seed_sample` (POST /sample, lines 238-259) -/

/-- One seeded sample record. -/
def sampleRecord (i : String) (d c ds amt : String) : Record :=
  { id := some i, date := some d, category := some c, descr := some ds,
    amount := some (.str amt) }

/-- The fixed sample set, with ids from the fresh-id stream. -/
def sampleEntries (fid : Nat → String) : List Record :=
  [ sampleRecord (fid 0) "2023-01-15" "食費" "スーパーマーケット" "3500",
    sampleRecord (fid 1) "2023-01-20" "交通費" "電車" "1200",
    sampleRecord (fid 2) "2023-01-25" "食費" "レストラン" "4800",
    sampleRecord (fid 3) "2023-02-05" "日用品" "ドラッグストア" "2600",
    sampleRecord (fid 4) "2023-02-10" "交際費" "飲み会" "5000",
    sampleRecord (fid 5) "2023-02-15" "食費" "コンビニ" "800",
    sampleRecord (fid 6) "2023-03-01" "光熱費" "電気代" "7200",
    sampleRecord (fid 7) "2023-03-10" "通信費" "携帯電話" "8000",
    sampleRecord (fid 8) "2023-03-15" "食費" "スーパーマーケット" "4200" ]

/-- Models `seed_sample`: appends the nine sample records to the store; no trim. -/
def seedSample (fid : Nat → String) (data : List Record) : List Record :=
  data ++ sampleEntries fid

/-- A concrete fresh-id stream used in closed instances. -/
def fid0 : Nat → String := fun k => "id-" ++ toString k

/-- Whether an `Except` is the error case. -/
def isError {ε α : Type} : Except ε α → Bool
  | .error _ => true
  | .ok _ => false

/-- Decidable equality for `Except`, used by closed instances below. -/
instance {ε α : Type} [DecidableEq ε] [DecidableEq α] : DecidableEq (Except ε α) := fun x y =>
  match x, y with
  | .ok a, .ok b => if h : a = b then .isTrue (by rw [h]) else .isFalse (by simp [h])
  | .error a, .error b => if h : a = b then .isTrue (by rw [h]) else .isFalse (by simp [h])
  | .ok _, .error _ => .isFalse (by simp)
  | .error _, .ok _ => .isFalse (by simp)

/-- A record with every key absent. -/
def blankRecord : Record :=
  { id := none, date := none, category := none, descr := none, amount := none }

/-- A date query parameter that does not trigger the 400 format check of
`filter_entries` (absent, empty — hence falsy — or well-formed). -/
def dateParamOk (o : Option String) : Bool :=
  !truthyOptStr o || isValidDateFormat (o.getD "")

/-- The records of a batch prefix as `create_entries` stores them: id
defaulted from the fresh-id stream (position `k` onwards), then category and
description defaulted. -/
def procFrom (fid : Nat → String) (k : Nat) : List Record → List Record
  | [] => []
  | e :: rest => withCatDesc (withId (fid k) e) :: procFrom fid (k + 1) rest

/-- A batch record with a truthy but non-numeric amount. -/
def cex8 : Record :=
  { id := none, date := some "2023-01-01", category := none, descr := none,
    amount := some (Val.str "abc") }

/-- A batch record with amount `0`. -/
def zeroAmountRec : Record :=
  { id := none, date := some "2023-01-01", category := none, descr := none,
    amount := some (Val.num 0) }

/-- The summed, parseable contributions of the matched entries having category
key `k` (the value the categories mapping should associate to `k`). -/
def catContribSum (l : List Record) (k : String) : ℚ :=
  ((l.filter (fun e => e.category.getD "未分類" == k)).filterMap
    (fun e => amtContrib e.amount)).sum

/-- A stored record with a date-prefixed month and an unparseable amount. -/
def cex6 : Record :=
  { id := none, date := some "2023-01-05", category := some "x", descr := none,
    amount := some (Val.str "abc") }

/-- A stored record in category `"food"` with amount 3. -/
def foodRec : Record :=
  { id := none, date := some "2023-01-02", category := some "food", descr := none,
    amount := some (Val.num 3) }

/-- A stored record in category `"trans"` with amount 4. -/
def transRec : Record :=
  { id := none, date := some "2023-01-03", category := some "trans", descr := none,
    amount := some (Val.num 4) }

/-- A stored record with an unparseable amount string. -/
def badAmtRec : Record :=
  { id := none, date := some "2023-02-02", category := some "mycat", descr := none,
    amount := some (Val.str "xyz") }

/-- Store used by the C3 witness. -/
def c3Data : List Record := [foodRec, transRec]

/-- Response of GET /entries?date_from=2023-01-01&category=food on `c3Data`. -/
def c3Out : EntrySummary :=
  { total := 1, total_amount := "3.0", categories := [("food", 3)], entries := [foodRec] }

/-- Store used by the C2 witness. -/
def c2Data : List Record := [foodRec, badAmtRec]

/-- Response of unfiltered GET /entries on `c2Data`. -/
def c2Out : EntrySummary :=
  { total := 2, total_amount := "3.0", categories := [("food", 3)],
    entries := [foodRec, badAmtRec] }

/-- A stored April record in category `"a"` with amount 30. -/
def c7RecA : Record :=
  { id := none, date := some "2023-04-01", category := some "a", descr := none,
    amount := some (Val.num 30) }

/-- A stored April record in category `"b"` with amount 10. -/
def c7RecB : Record :=
  { id := none, date := some "2023-04-02", category := some "b", descr := none,
    amount := some (Val.num 10) }

/-- Store used by the C7 witness. -/
def c7Data : List Record := [c7RecA, c7RecB]

/-- Response of GET /summary/2023-04 on `c7Data`. -/
def c7Out : SummaryResp :=
  { year_month := "2023-04", total_entries := 2, total_amount := "40.0",
    categories :=
      [{ category := "a", amount := "30.0", percentage := "75.0" },
       { category := "b", amount := "10.0", percentage := "25.0" }] }

/-- A valid batch record used by concrete instances. -/
def goodRec1 : Record :=
  { id := none, date := some "2023-01-01", category := none, descr := none,
    amount := some (Val.num 1) }

/-- The record `goodRec1` as `create_entries` stores it (under the id stream `fid0`). -/
def goodRec1Stored : Record :=
  { id := some "id-0", date := some "2023-01-01", category := some "未分類",
    descr := some "", amount := some (Val.num 1) }

end Kakeibo

namespace Kakeibo

attribute [local semireducible] Rat.add Rat.mul Rat.sub Rat.inv Rat.ofScientific

/-! ### Helper lemmas about the create path -/

theorem goodRecord_withId (i : String) (e : Record) :
    goodRecord (withId i e) = goodRecord e := rfl

theorem createLoopStopsAtBad (fid : Nat → String) (pre : List Record) (k : Nat)
    (data created : List Record) (bad : Record) (rest : List Record)
    (hpre : ∀ e ∈ pre, goodRecord e = true) (hbad : goodRecord bad = false) :
    createLoop fid k data created (pre ++ bad :: rest) =
      .error (data ++ procFrom fid k pre, requiredMsg) := by
  induction pre generalizing k data created with
  | nil =>
    simp only [List.nil_append, createLoop, goodRecord_withId, hbad, Bool.false_eq_true,
      if_false, procFrom, List.append_nil]
  | cons e pre ih =>
    have he : goodRecord e = true := hpre e (List.mem_cons_self e pre)
    have ih2 := ih (k + 1) (data ++ [withCatDesc (withId (fid k) e)])
      (created ++ [withCatDesc (withId (fid k) e)])
      (fun x hx => hpre x (List.mem_cons_of_mem e hx))
    simp only [List.cons_append, createLoop, goodRecord_withId, he, if_true, procFrom,
      List.append_eq]
    rw [ih2]
    simp [List.append_assoc]

theorem createEntriesStopsAtBad (fid : Nat → String) (data pre : List Record)
    (bad : Record) (rest : List Record)
    (hpre : ∀ e ∈ pre, goodRecord e = true) (hbad : goodRecord bad = false) :
    createEntries fid data (pre ++ bad :: rest) =
      .err (data ++ procFrom fid 0 pre) requiredMsg := by
  unfold createEntries
  rw [createLoopStopsAtBad fid pre 0 data [] bad rest hpre hbad]

theorem createLoop_ok_inv (fid : Nat → String) (batch : List Record) (k : Nat)
    (data created d cr : List Record)
    (h : createLoop fid k data created batch = .ok (d, cr)) :
    ∃ p, d = data ++ p ∧ cr = created ++ p := by
  induction batch generalizing k data created with
  | nil =>
    refine ⟨[], ?_, ?_⟩ <;> simp_all [createLoop]
  | cons e rest ih =>
    by_cases hg : goodRecord e = true
    · simp only [createLoop, goodRecord_withId, hg, if_true] at h
      obtain ⟨p, hp1, hp2⟩ := ih (k + 1) _ _ h
      exact ⟨withCatDesc (withId (fid k) e) :: p, by simp [hp1], by simp [hp2]⟩
    · simp only [createLoop, goodRecord_withId, hg] at h
      simp at hg
      simp [hg] at h

theorem trim10k_length (l : List Record) :
    (trim10k l).length = min l.length 10000 := by
  unfold trim10k
  split <;> simp <;> omega

theorem trim10k_suffix (l : List Record) : trim10k l <:+ l := by
  unfold trim10k
  split
  · exact List.drop_suffix _ _
  · exact List.suffix_refl l

/-! ### C1 — the trim on the create path -/

/-- C1 counterexample: the claim says the store holds at most 10,000 entries
after any batch create via POST /entries.  Starting from a store of exactly
10,000 records, a batch whose first record is valid and whose second record
fails validation leaves 10,001 records: the valid record is appended before
the exception is raised, and the trim is skipped. -/
theorem c1_counterexample :
    10000 < ((createEntries fid0 (List.replicate 10000 blankRecord)
      [goodRec1, blankRecord]).newStore).length := by
  have hsplit : ([goodRec1, blankRecord] : List Record) = [goodRec1] ++ blankRecord :: [] := rfl
  rw [hsplit,
    createEntriesStopsAtBad fid0 (List.replicate 10000 blankRecord) [goodRec1] blankRecord []
      (by decide) (by decide)]
  simp only [CreateResult.newStore, procFrom, List.length_append, List.length_replicate,
    List.length_cons, List.length_nil]
  omega

/-- C1 (amended): after any batch create via POST /entries that completes
without a validation error, the store holds at most 10,000 entries, it is a
suffix of the old store followed by the created records (so exactly the oldest
excess entries are dropped), and its length is exactly
`min (old + created) 10000` (the newest 10,000 are retained on overflow).  A
create that fails validation can leave the store above the bound, as
`c1_counterexample` shows. -/
theorem c1_overflow_trim (fid : Nat → String) (data batch newData created : List Record)
    (h : createEntries fid data batch = .ok newData created) :
    newData.length ≤ 10000 ∧
    newData <:+ (data ++ created) ∧
    newData.length = min (data.length + created.length) 10000 := by
  unfold createEntries at h
  cases hl : createLoop fid 0 data [] batch with
  | error p => rw [hl] at h; cases h
  | ok p =>
    obtain ⟨d, cr⟩ := p
    rw [hl] at h
    cases h
    obtain ⟨q, hq1, hq2⟩ := createLoop_ok_inv fid batch 0 data [] d cr hl
    simp only [List.nil_append] at hq2
    subst hq2
    subst hq1
    refine ⟨?_, ?_, ?_⟩
    · rw [trim10k_length]; omega
    · exact trim10k_suffix _
    · rw [trim10k_length, List.length_append]

/-- C1 witness: a concrete successful create satisfying the amended law. -/
theorem c1_witness :
    ([{ id := some "id-0", date := some "2023-01-02", category := some "未分類",
        descr := some "", amount := some (.num 5) }] : List Record).length ≤ 10000 ∧
    ([{ id := some "id-0", date := some "2023-01-02", category := some "未分類",
        descr := some "", amount := some (.num 5) }] : List Record) <:+
      (([] : List Record) ++
        [{ id := some "id-0", date := some "2023-01-02", category := some "未分類",
           descr := some "", amount := some (.num 5) }]) ∧
    ([{ id := some "id-0", date := some "2023-01-02", category := some "未分類",
        descr := some "", amount := some (.num 5) }] : List Record).length =
      min (([] : List Record).length +
        ([{ id := some "id-0", date := some "2023-01-02", category := some "未分類",
            descr := some "", amount := some (.num 5) }] : List Record).length) 10000 :=
  c1_overflow_trim fid0 []
    [{ id := none, date := some "2023-01-02", category := none, descr := none,
       amount := some (.num 5) }] _ _ (by decide)

/-! ### C5 — atomicity of a failing batch -/

/-- C5 counterexample: the claim says a batch in which some record fails
validation leaves the store unchanged.  On the empty store, the batch
`[valid, invalid]` fails with the 400 "required" error yet leaves the
processed valid record in the store. -/
theorem c5_counterexample :
    createEntries fid0 []
        [{ id := none, date := some "2023-01-01", category := none, descr := none,
           amount := some (.num 1) }, blankRecord] =
      .err [{ id := some "id-0", date := some "2023-01-01", category := some "未分類",
              descr := some "", amount := some (.num 1) }] requiredMsg ∧
    ([{ id := some "id-0", date := some "2023-01-01", category := some "未分類",
        descr := some "", amount := some (.num 1) }] : List Record) ≠ [] := by
  constructor
  · decide
  · decide

/-- C5 (amended): when a record of a create batch fails required-field
validation, the whole request fails with the 400 "required" error, but the
store is not rolled back: the valid records preceding the first invalid record
have already been appended (with their defaults filled in), and the overflow
trim does not run. -/
theorem c5_partial_append (fid : Nat → String) (data pre : List Record)
    (bad : Record) (rest : List Record)
    (hpre : ∀ e ∈ pre, goodRecord e = true) (hbad : goodRecord bad = false) :
    createEntries fid data (pre ++ bad :: rest) =
      .err (data ++ procFrom fid 0 pre) requiredMsg :=
  createEntriesStopsAtBad fid data pre bad rest hpre hbad

/-- C5 witness: concrete instance of the amended statement. -/
theorem c5_witness :
    createEntries fid0
        [blankRecord]
        ([{ id := none, date := some "2023-03-01", category := some "x", descr := none,
            amount := some (.str "7") }] ++ blankRecord :: []) =
      .err ([blankRecord] ++
        procFrom fid0 0
          [{ id := none, date := some "2023-03-01", category := some "x", descr := none,
             amount := some (.str "7") }]) requiredMsg :=
  c5_partial_append fid0 [blankRecord]
    [{ id := none, date := some "2023-03-01", category := some "x", descr := none,
       amount := some (.str "7") }] blankRecord [] (by decide) (by decide)

/-! ### C10 — seeding bypasses the trim -/

/-- C10: POST /sample appends its nine fixed sample entries without the
10,000-entry overflow trim, so a store already holding at least 9,992 entries
exceeds the bound after seeding. -/
theorem c10_seed_bypasses_trim (fid : Nat → String) (data : List Record) :
    (seedSample fid data).length = data.length + 9 ∧
    (9992 ≤ data.length → 10000 < (seedSample fid data).length) := by
  constructor
  · simp [seedSample, sampleEntries]
  · intro h
    simp only [seedSample, sampleEntries, List.length_append]
    simp
    omega

/-- C10 witness: a store of 9,992 records exceeds the 10,000 bound after
seeding. -/
theorem c10_witness :
    10000 < (seedSample fid0 (List.replicate 9992 blankRecord)).length :=
  (c10_seed_bypasses_trim fid0 (List.replicate 9992 blankRecord)).2
    (by simp only [List.length_replicate, le_refl])

/-! ### C8 — non-numeric amounts at create -/

theorem mem_trim10k_append (data : List Record) (e : Record) :
    e ∈ trim10k (data ++ [e]) := by
  unfold trim10k
  split
  · rename_i hlen
    rw [List.length_append, List.length_singleton] at hlen ⊢
    rw [List.drop_append_of_le_length (by omega)]
    exact List.mem_append_right _ (List.mem_singleton_self e)
  · exact List.mem_append_right _ (List.mem_singleton_self e)

/-- C8 counterexample: the claim says a record with a non-numeric amount is
rejected at create.  A batch with amount `"abc"` (not parseable as a number)
succeeds and the record is stored. -/
theorem c8_counterexample :
    createEntries fid0 [] [cex8] =
      .ok [{ id := some "id-0", date := some "2023-01-01", category := some "未分類",
             descr := some "", amount := some (Val.str "abc") }]
        [{ id := some "id-0", date := some "2023-01-01", category := some "未分類",
           descr := some "", amount := some (Val.str "abc") }] ∧
    parseDecimal "abc" = none := by decide

/-- C8 (amended): on the create path, a record whose amount is any non-empty
string — numeric or not — passes validation: the request succeeds and the
record is stored with its amount unchanged.  Only absent or falsy amounts are
rejected (see `c4_required_validation`); the pydantic `Entry` amount validator
is not invoked on this path. -/
theorem c8_nonnumeric_stored (fid : Nat → String) (data : List Record) (r : Record)
    (s : String) (hd : truthyOptStr r.date = true) (hs : s ≠ "")
    (ha : r.amount = some (Val.str s)) :
    (createEntries fid data [r]).isErr = false ∧
    withCatDesc (withId (fid 0) r) ∈ (createEntries fid data [r]).newStore ∧
    (withCatDesc (withId (fid 0) r)).amount = some (Val.str s) := by
  have hg : goodRecord r = true := by
    simp [goodRecord, hd, ha, truthyOptVal, truthyVal, hs]
  have hloop : createLoop fid 0 data [] [r] =
      .ok (data ++ [withCatDesc (withId (fid 0) r)], [withCatDesc (withId (fid 0) r)]) := by
    simp [createLoop, goodRecord_withId, hg]
  unfold createEntries
  rw [hloop]
  refine ⟨rfl, mem_trim10k_append data _, ?_⟩
  simp [withCatDesc, withId, ha]

/-- C8 witness: the amended statement at the concrete record with amount
`"abc"`. -/
theorem c8_witness :
    (createEntries fid0 [] [cex8]).isErr = false ∧
    withCatDesc (withId (fid0 0) cex8) ∈ (createEntries fid0 [] [cex8]).newStore ∧
    (withCatDesc (withId (fid0 0) cex8)).amount = some (Val.str "abc") :=
  c8_nonnumeric_stored fid0 [] cex8 "abc" (by decide) (by decide) rfl

/-! ### C4 — required-field validation at create -/

theorem truthyOptStr_false_iff (o : Option String) :
    truthyOptStr o = false ↔ o = none ∨ o = some "" := by
  cases o <;> simp [truthyOptStr]

theorem truthyOptVal_false_iff (o : Option Val) :
    truthyOptVal o = false ↔ o = none ∨ ∃ v, o = some v ∧ truthyVal v = false := by
  cases o <;> simp [truthyOptVal]

theorem goodRecord_false_iff (r : Record) :
    goodRecord r = false ↔
      ((r.date = none ∨ r.date = some "") ∨
        r.amount = none ∨ ∃ v, r.amount = some v ∧ truthyVal v = false) := by
  unfold goodRecord
  rw [Bool.and_eq_false_iff, truthyOptStr_false_iff, truthyOptVal_false_iff]

theorem createLoop_isErr_iff (fid : Nat → String) (batch : List Record) (k : Nat)
    (data created : List Record) :
    isError (createLoop fid k data created batch) = true ↔
      ∃ r ∈ batch, goodRecord r = false := by
  induction batch generalizing k data created with
  | nil => simp [createLoop, isError]
  | cons e rest ih =>
    by_cases hg : goodRecord e = true
    · simp only [createLoop, goodRecord_withId, hg, if_true]
      rw [ih]
      constructor
      · rintro ⟨r, hr, hb⟩
        exact ⟨r, List.mem_cons_of_mem e hr, hb⟩
      · rintro ⟨r, hr, hb⟩
        rcases List.mem_cons.mp hr with rfl | hr
        · rw [hg] at hb; cases hb
        · exact ⟨r, hr, hb⟩
    · simp only [Bool.not_eq_true] at hg
      simp only [createLoop, goodRecord_withId, hg, Bool.false_eq_true, if_false]
      simp only [isError, true_iff]
      exact ⟨e, List.mem_cons_self e rest, hg⟩

theorem createEntries_isErr_eq (fid : Nat → String) (data batch : List Record) :
    (createEntries fid data batch).isErr = isError (createLoop fid 0 data [] batch) := by
  unfold createEntries
  cases createLoop fid 0 data [] batch <;> rfl

/-- C4: a batch create fails with the 400 "required" error iff some record of
the batch has an absent or empty date, or an absent or falsy amount (falsy:
JSON null, the empty string, or the number 0); in particular a record whose
amount is the number 0 makes the batch fail. -/
theorem c4_required_validation (fid : Nat → String) (data batch : List Record) :
    ((createEntries fid data batch).isErr = true ↔
      ∃ r ∈ batch, (r.date = none ∨ r.date = some "") ∨
        r.amount = none ∨ ∃ v, r.amount = some v ∧ truthyVal v = false) ∧
    (∀ r ∈ batch, r.amount = some (Val.num 0) →
      (createEntries fid data batch).isErr = true) := by
  have hmain : (createEntries fid data batch).isErr = true ↔
      ∃ r ∈ batch, goodRecord r = false := by
    rw [createEntries_isErr_eq]
    exact createLoop_isErr_iff fid batch 0 data []
  constructor
  · refine hmain.trans ⟨fun h => ?_, fun h => ?_⟩
    · obtain ⟨r, hr, hb⟩ := h
      exact ⟨r, hr, (goodRecord_false_iff r).mp hb⟩
    · obtain ⟨r, hr, hb⟩ := h
      exact ⟨r, hr, (goodRecord_false_iff r).mpr hb⟩
  · intro r hr ha
    rw [hmain]
    refine ⟨r, hr, ?_⟩
    simp [goodRecord, truthyOptVal, ha, truthyVal]

/-- C4 witness: a batch whose single record has amount `0` is rejected. -/
theorem c4_witness : (createEntries fid0 [] [zeroAmountRec]).isErr = true :=
  (c4_required_validation fid0 [] [zeroAmountRec]).2 zeroAmountRec
    (List.mem_singleton_self _) rfl

/-! ### C3 — filter membership and order -/

theorem filterEntries_ok_inv (df dt c : Option String) (data : List Record)
    (s : EntrySummary) (h : filterEntries df dt c data = .ok s) :
    s = { total := (data.filter (keepRecord df dt c)).length,
          total_amount := pyFloatStr (totalLoop (data.filter (keepRecord df dt c))),
          categories := catLoop (data.filter (keepRecord df dt c)) [],
          entries := data.filter (keepRecord df dt c) } := by
  unfold filterEntries at h
  split at h
  · cases h
  · split at h
    · cases h
    · cases h
      rfl

theorem keepDateFrom_iff (df : Option String) (e : Record)
    (hdf : ∀ v, df = some v → v ≠ "") :
    (!(truthyOptStr df && pyStrLt (e.date.getD "") (df.getD ""))) = true ↔
      ∀ v, df = some v → pyStrLe v (e.date.getD "") = true := by
  cases df with
  | none => simp [truthyOptStr]
  | some v =>
    have hv : v ≠ "" := hdf v rfl
    simp [truthyOptStr, hv, pyStrLe]

theorem keepDateTo_iff (dt : Option String) (e : Record)
    (hdt : ∀ v, dt = some v → v ≠ "") :
    (!(truthyOptStr dt && pyStrLt (dt.getD "") (e.date.getD ""))) = true ↔
      ∀ v, dt = some v → pyStrLe (e.date.getD "") v = true := by
  cases dt with
  | none => simp [truthyOptStr]
  | some v =>
    have hv : v ≠ "" := hdt v rfl
    simp [truthyOptStr, hv, pyStrLe]

theorem keepCategory_iff (c : Option String) (e : Record)
    (hc : ∀ v, c = some v → v ≠ "") :
    (!(truthyOptStr c && (e.category != c))) = true ↔
      ∀ v, c = some v → e.category = some v := by
  cases c with
  | none => simp [truthyOptStr]
  | some v =>
    have hv : v ≠ "" := hc v rfl
    simp [truthyOptStr, hv, bne]

theorem keepRecord_iff (df dt c : Option String) (e : Record)
    (hdf : ∀ v, df = some v → v ≠ "") (hdt : ∀ v, dt = some v → v ≠ "")
    (hc : ∀ v, c = some v → v ≠ "") :
    keepRecord df dt c e = true ↔
      ((∀ v, df = some v → pyStrLe v (e.date.getD "") = true) ∧
       (∀ v, dt = some v → pyStrLe (e.date.getD "") v = true) ∧
       (∀ v, c = some v → e.category = some v)) := by
  unfold keepRecord
  rw [Bool.and_eq_true, Bool.and_eq_true]
  rw [keepDateFrom_iff df e hdf, keepDateTo_iff dt e hdt, keepCategory_iff c e hc]
  tauto

/-- C3 counterexample: the claim says an entry is included only if its
category equals the provided category.  With the provided category being the
empty string (a present query parameter, falsy in Python), a record whose
category is `"food"` is still included: the empty-string bound is ignored. -/
theorem c3_counterexample :
    Except.map EntrySummary.entries
        (filterEntries none none (some "")
          [{ id := none, date := some "2023-01-02", category := some "food",
             descr := none, amount := some (Val.num 3) }]) =
      .ok [{ id := none, date := some "2023-01-02", category := some "food",
             descr := none, amount := some (Val.num 3) }] ∧
    some "food" ≠ some "" := by decide

/-- C3 (amended): provided that each supplied filter value is non-empty (an
empty string is falsy in Python and is treated as an absent parameter), an
entry is in the matched list iff it is in the store and every provided bound
holds — `date_from ≤ date`, `date ≤ date_to` under lexicographic string
comparison, and category equality — and the matched list is a subsequence of
the store, preserving insertion order. -/
theorem c3_filter_membership (df dt c : Option String) (data : List Record)
    (s : EntrySummary)
    (hdf : ∀ v, df = some v → v ≠ "") (hdt : ∀ v, dt = some v → v ≠ "")
    (hc : ∀ v, c = some v → v ≠ "")
    (h : filterEntries df dt c data = .ok s) :
    (∀ e, e ∈ s.entries ↔ e ∈ data ∧
      ((∀ v, df = some v → pyStrLe v (e.date.getD "") = true) ∧
       (∀ v, dt = some v → pyStrLe (e.date.getD "") v = true) ∧
       (∀ v, c = some v → e.category = some v))) ∧
    s.entries.Sublist data := by
  have hs := filterEntries_ok_inv df dt c data s h
  subst hs
  constructor
  · intro e
    exact (List.mem_filter).trans
      (and_congr_right fun _ => keepRecord_iff df dt c e hdf hdt hc)
  · exact List.filter_sublist data

/-! ### C2 — sum law of GET /entries -/

theorem totalLoop_eq (l : List Record) :
    totalLoop l = (l.filterMap (fun e => amtContrib e.amount)).sum := by
  induction l with
  | nil => simp [totalLoop]
  | cons e rest ih =>
    cases ha : amtContrib e.amount with
    | none => simp [totalLoop, ha, List.filterMap_cons, ih]
    | some q => simp [totalLoop, ha, List.filterMap_cons, ih]

theorem lookupCat_updCat (l : List (String × ℚ)) (k k' : String) (q : ℚ) :
    lookupCat (updCat l k q) k' =
      if k' = k then some ((lookupCat l k).getD 0 + q) else lookupCat l k' := by
  induction l with
  | nil =>
    by_cases hk : k' = k
    · simp [updCat, lookupCat, hk]
    · simp [updCat, lookupCat, hk]
      exact fun hh => hk hh.symm
  | cons p rest ih =>
    by_cases hpk : p.1 = k
    · by_cases hk : k' = k
      · subst hk
        simp [updCat, lookupCat, hpk]
      · have hkk : ¬ k = k' := fun hh => hk hh.symm
        simp [updCat, lookupCat, hpk, hk, hkk]
    · by_cases hpk' : p.1 = k'
      · have hk : ¬ k' = k := fun hh => hpk (hpk'.trans hh)
        simp [updCat, lookupCat, hpk, hpk', hk]
      · simp [updCat, lookupCat, hpk, hpk', ih]

theorem catLoop_cons_none (e : Record) (rest : List Record)
    (acc : List (String × ℚ)) (ha : amtContrib e.amount = none) :
    catLoop (e :: rest) acc = catLoop rest acc := by
  simp [catLoop, ha]

theorem catLoop_cons_some (e : Record) (rest : List Record)
    (acc : List (String × ℚ)) (q : ℚ) (ha : amtContrib e.amount = some q) :
    catLoop (e :: rest) acc = catLoop rest (updCat acc (e.category.getD "未分類") q) := by
  simp [catLoop, ha]

theorem catContribSum_cons_none (e : Record) (rest : List Record) (k : String)
    (ha : amtContrib e.amount = none) :
    catContribSum (e :: rest) k = catContribSum rest k := by
  by_cases hkey : (e.category.getD "未分類" == k) = true
  · simp [catContribSum, List.filter_cons, hkey, List.filterMap_cons, ha]
  · simp [catContribSum, List.filter_cons, hkey]

theorem catContribSum_cons_some (e : Record) (rest : List Record) (k : String)
    (q : ℚ) (ha : amtContrib e.amount = some q) :
    catContribSum (e :: rest) k =
      (if e.category.getD "未分類" = k then q else 0) + catContribSum rest k := by
  by_cases hkey : e.category.getD "未分類" = k
  · simp [catContribSum, List.filter_cons, hkey, List.filterMap_cons, ha]
  · simp [catContribSum, List.filter_cons, hkey]

theorem catLoop_lookup_getD (l : List Record) (acc : List (String × ℚ)) (k : String) :
    (lookupCat (catLoop l acc) k).getD 0 =
      (lookupCat acc k).getD 0 + catContribSum l k := by
  induction l generalizing acc with
  | nil => simp [catLoop, catContribSum]
  | cons e rest ih =>
    cases ha : amtContrib e.amount with
    | none =>
      rw [catLoop_cons_none e rest acc ha, catContribSum_cons_none e rest k ha, ih]
    | some q =>
      rw [catLoop_cons_some e rest acc q ha, catContribSum_cons_some e rest k q ha, ih,
        lookupCat_updCat]
      by_cases hkey : e.category.getD "未分類" = k
      · rw [if_pos hkey.symm, if_pos hkey, ← hkey]
        simp only [Option.getD_some]
        ring
      · rw [if_neg (fun hh => hkey hh.symm), if_neg hkey]
        ring

theorem catLoop_lookup_isSome (l : List Record) (acc : List (String × ℚ)) (k : String) :
    (lookupCat (catLoop l acc) k).isSome =
      ((lookupCat acc k).isSome ||
        l.any (fun e => e.category.getD "未分類" == k && (amtContrib e.amount).isSome)) := by
  induction l generalizing acc with
  | nil => simp [catLoop]
  | cons e rest ih =>
    cases ha : amtContrib e.amount with
    | none =>
      rw [catLoop_cons_none e rest acc ha, ih]
      simp [List.any_cons, ha]
    | some q =>
      rw [catLoop_cons_some e rest acc q ha, ih, lookupCat_updCat]
      by_cases hkey : e.category.getD "未分類" = k
      · rw [if_pos hkey.symm]
        simp [List.any_cons, hkey, ha]
      · rw [if_neg (fun hh => hkey hh.symm)]
        have hbeq : (e.category.getD "未分類" == k) = false :=
          beq_eq_false_iff_ne.mpr hkey
        simp [List.any_cons, hbeq]

/-- C2: for every store and filter combination on which GET /entries returns,
`total` counts all matched entries, `total_amount` is the serialized sum of
the parseable amounts among the matched entries, the categories mapping
associates to each key the summed parseable amounts of the matched entries
with that category, and a key is present in the mapping iff some matched
entry has that category and a parseable amount (so an entry with an
unparseable amount is counted and listed but contributes to neither
`total_amount` nor `categories`). -/
theorem c2_sum_law (df dt c : Option String) (data : List Record) (s : EntrySummary)
    (h : filterEntries df dt c data = .ok s) :
    s.total = s.entries.length ∧
    s.total_amount = pyFloatStr ((s.entries.filterMap (fun e => amtContrib e.amount)).sum) ∧
    (∀ k, (lookupCat s.categories k).getD 0 = catContribSum s.entries k) ∧
    (∀ k, (lookupCat s.categories k).isSome = true ↔
      ∃ e ∈ s.entries, e.category.getD "未分類" = k ∧
        (amtContrib e.amount).isSome = true) := by
  have hs := filterEntries_ok_inv df dt c data s h
  subst hs
  refine ⟨rfl, ?_, ?_, ?_⟩
  · exact congrArg pyFloatStr (totalLoop_eq _)
  · intro k
    rw [catLoop_lookup_getD]
    simp [lookupCat]
  · intro k
    rw [catLoop_lookup_isSome]
    simp only [lookupCat, Option.isSome_none, Bool.false_or, List.any_eq_true,
      Bool.and_eq_true, beq_iff_eq, List.mem_filter]
    try tauto

/-! ### C9 — seed then summarize 2023-01 -/

/-- C9 counterexample: the claim says GET /summary/2023-01 after seeding
reports `total_entries = 2`; the sample set has three January 2023 entries, so
the code reports 3. -/
theorem c9_counterexample :
    Except.map SummaryResp.total_entries (getSummary "2023-01" (seedSample fid0 [])) ≠
      Except.ok 2 := by decide

/-- C9 (amended): starting from an empty store, POST /sample followed by
GET /summary/2023-01 returns `total_entries = 3` (2023-01-15 食費 3500,
2023-01-20 交通費 1200, 2023-01-25 食費 4800), `total_amount = "9500.0"`, and
categories sorted descending by amount (食費 8300 before 交通費 1200). -/
theorem c9_sample_summary :
    getSummary "2023-01" (seedSample fid0 []) =
      .ok { year_month := "2023-01", total_entries := 3, total_amount := "9500.0",
            categories :=
              [{ category := "食費", amount := "8300.0", percentage := "87.37" },
               { category := "交通費", amount := "1200.0", percentage := "12.63" }] } := by
  decide

/-- C3 witness: the amended filter law at a concrete store and filters. -/
theorem c3_witness :
    (∀ e, e ∈ c3Out.entries ↔ e ∈ c3Data ∧
      ((∀ v, (some "2023-01-01" : Option String) = some v →
        pyStrLe v (e.date.getD "") = true) ∧
       (∀ v, (none : Option String) = some v →
        pyStrLe (e.date.getD "") v = true) ∧
       (∀ v, (some "food" : Option String) = some v → e.category = some v))) ∧
    c3Out.entries.Sublist c3Data :=
  c3_filter_membership (some "2023-01-01") none (some "food") c3Data c3Out
    (fun v hv => by injection hv with h2; subst h2; decide)
    (fun v hv => Option.noConfusion hv)
    (fun v hv => by injection hv with h2; subst h2; decide)
    (by decide)

/-- C2 witness: the sum law at a concrete store containing a record with an
unparseable amount. -/
theorem c2_witness :
    c2Out.total = c2Out.entries.length ∧
    c2Out.total_amount =
      pyFloatStr ((c2Out.entries.filterMap (fun e => amtContrib e.amount)).sum) ∧
    (∀ k, (lookupCat c2Out.categories k).getD 0 = catContribSum c2Out.entries k) ∧
    (∀ k, (lookupCat c2Out.categories k).isSome = true ↔
      ∃ e ∈ c2Out.entries, e.category.getD "未分類" = k ∧
        (amtContrib e.amount).isSome = true) :=
  c2_sum_law none none none c2Data c2Out (by decide)

/-! ### C6 — leniency asymmetry of the report endpoints -/

theorem formatCheck_false (o : Option String) (h : dateParamOk o = true) :
    (truthyOptStr o && !isValidDateFormat (o.getD "")) = false := by
  unfold dateParamOk at h
  cases htr : truthyOptStr o
  · simp
  · rw [htr] at h
    simp at h
    simp [h]

theorem filterEntries_ok_of_params (df dt c : Option String) (data : List Record)
    (h1 : dateParamOk df = true) (h2 : dateParamOk dt = true) :
    filterEntries df dt c data =
      .ok { total := (data.filter (keepRecord df dt c)).length,
            total_amount := pyFloatStr (totalLoop (data.filter (keepRecord df dt c))),
            categories := catLoop (data.filter (keepRecord df dt c)) [],
            entries := data.filter (keepRecord df dt c) } := by
  unfold filterEntries
  rw [formatCheck_false df h1, formatCheck_false dt h2]
  simp

theorem selectMonthly_ok (ym : String) (data : List Record)
    (hd : ∀ x ∈ data, x.date ≠ none) :
    ∃ m, selectMonthly ym data = .ok m ∧
      ∀ x ∈ data, strStarts (x.date.getD "") ym = true → x ∈ m := by
  induction data with
  | nil => exact ⟨[], rfl, by simp⟩
  | cons x rest ih =>
    obtain ⟨m, hm, hmem⟩ := ih (fun y hy => hd y (List.mem_cons_of_mem x hy))
    cases hx : x.date with
    | none => exact absurd hx (hd x (List.mem_cons_self x rest))
    | some d =>
      refine ⟨if strStarts d ym then x :: m else m, ?_, ?_⟩
      · simp only [selectMonthly, hx, hm]
        rfl
      · intro y hy hys
        rcases List.mem_cons.mp hy with rfl | hy2
        · rw [hx] at hys
          simp only [Option.getD_some] at hys
          rw [if_pos hys]
          exact List.mem_cons_self y m
        · have hgoal := hmem y hy2 hys
          by_cases hstart : strStarts d ym = true
          · rw [if_pos hstart]
            exact List.mem_cons_of_mem x hgoal
          · rw [if_neg hstart]
            exact hgoal

theorem exceptBind_ok {ε α β : Type} (a : α) (f : α → Except ε β) :
    (Except.ok a >>= f) = f a := rfl

theorem exceptBind_err {ε α β : Type} (m : ε) (f : α → Except ε β) :
    ((Except.error m : Except ε α) >>= f) = Except.error m := rfl

theorem sumAmounts_err (l : List Record) (e : Record) (he : e ∈ l)
    (hc : isError (coerceAmt e.amount) = true) :
    isError (sumAmounts l) = true := by
  induction l with
  | nil => cases he
  | cons x rest ih =>
    cases hcx : coerceAmt x.amount with
    | error m =>
      simp only [sumAmounts]
      rw [hcx, exceptBind_err]
      rfl
    | ok a =>
      rcases List.mem_cons.mp he with rfl | he2
      · rw [hcx] at hc
        simp [isError] at hc
      · have hr := ih he2
        cases hsr : sumAmounts rest with
        | error m2 =>
          simp only [sumAmounts]
          rw [hcx, exceptBind_ok, hsr, exceptBind_err]
          rfl
        | ok t =>
          rw [hsr] at hr
          simp [isError] at hr

theorem getSummary_err_of_sum (ym : String) (data monthly : List Record)
    (hfmt : ¬(ym.toList.length ≠ 7 ∨ ym.toList.getD 4 ' ' ≠ '-'))
    (hm : selectMonthly ym data = .ok monthly)
    (hs : isError (sumAmounts monthly) = true) :
    isError (getSummary ym data) = true := by
  unfold getSummary
  rw [if_neg hfmt, hm, exceptBind_ok]
  cases hsum : sumAmounts monthly with
  | error m2 =>
    rw [exceptBind_err]
    rfl
  | ok t =>
    rw [hsum] at hs
    simp [isError] at hs

/-- C6 counterexample: the claim says an unparseable amount never causes a
report request to fail.  On GET /summary/2023-01 a stored record with amount
`"abc"` makes `float` raise, and the request fails (500 via the global
handler). -/
theorem c6_counterexample :
    getSummary "2023-01" [cex6] =
      .error "ValueError: could not convert string to float" := by decide

/-- C6 (amended): the leniency is asymmetric between the two report endpoints.
On GET /entries (with date parameters absent, empty or well-formed) the
request always succeeds; a record whose amount fails to parse stays in the
count and the matched list, and the total sums only the parseable amounts.
On GET /summary, a matched record whose amount is a non-empty unparseable
string makes the request fail, while absent/falsy amounts are coerced to 0. -/
theorem c6_leniency_asymmetry :
    (∀ (data : List Record) (df dt c : Option String),
      dateParamOk df = true → dateParamOk dt = true →
      ∃ s, filterEntries df dt c data = .ok s ∧
        s.total = s.entries.length ∧
        (∀ e ∈ data, keepRecord df dt c e = true → e ∈ s.entries) ∧
        s.total_amount =
          pyFloatStr ((s.entries.filterMap (fun e => amtContrib e.amount)).sum)) ∧
    (∀ (ym : String) (data : List Record) (e : Record) (bad : String),
      (∀ x ∈ data, x.date ≠ none) →
      e ∈ data → strStarts (e.date.getD "") ym = true →
      e.amount = some (Val.str bad) → bad ≠ "" → parseDecimal bad = none →
      isError (getSummary ym data) = true) := by
  constructor
  · intro data df dt c h1 h2
    refine ⟨_, filterEntries_ok_of_params df dt c data h1 h2, rfl, ?_, ?_⟩
    · intro e he hk
      exact List.mem_filter.mpr ⟨he, hk⟩
    · exact congrArg pyFloatStr (totalLoop_eq _)
  · intro ym data e bad hdates he hstart hamt hbad hparse
    by_cases hfmt : (ym.toList.length ≠ 7 ∨ ym.toList.getD 4 ' ' ≠ '-')
    · unfold getSummary
      rw [if_pos hfmt]
      rfl
    · obtain ⟨m, hm, hmem⟩ := selectMonthly_ok ym data hdates
      have hc : isError (coerceAmt e.amount) = true := by
        rw [hamt]
        simp [coerceAmt, hbad, hparse, isError]
      exact getSummary_err_of_sum ym data m hfmt hm
        (sumAmounts_err m e (hmem e he hstart) hc)

/-- C6 witness: both halves of the asymmetry at concrete stores. -/
theorem c6_witness :
    (∃ s, filterEntries none none none [cex6] = .ok s ∧
      s.total = s.entries.length ∧
      (∀ e ∈ [cex6], keepRecord none none none e = true → e ∈ s.entries) ∧
      s.total_amount =
        pyFloatStr ((s.entries.filterMap (fun e => amtContrib e.amount)).sum)) ∧
    isError (getSummary "2023-01" [cex6]) = true :=
  ⟨c6_leniency_asymmetry.1 [cex6] none none none rfl rfl,
   c6_leniency_asymmetry.2 "2023-01" [cex6] cex6 "abc"
     (by decide) (List.mem_singleton_self _) (by decide) rfl (by decide) (by decide)⟩

/-! ### C7 — percentage law of the monthly summary -/

theorem mem_insertDesc (p x : String × ℚ) (l : List (String × ℚ)) :
    x ∈ insertDesc p l ↔ x = p ∨ x ∈ l := by
  induction l with
  | nil => simp [insertDesc]
  | cons q rest ih =>
    by_cases h : q.2 ≤ p.2
    · simp [insertDesc, h]
      try tauto
    · simp [insertDesc, h, ih]
      try tauto

theorem insertDesc_perm (p : String × ℚ) (l : List (String × ℚ)) :
    List.Perm (insertDesc p l) (p :: l) := by
  induction l with
  | nil => simp [insertDesc]
  | cons q rest ih =>
    by_cases h : q.2 ≤ p.2
    · simp [insertDesc, h]
    · simp only [insertDesc, h, if_neg, if_false]
      exact (ih.cons q).trans (List.Perm.swap p q rest)

theorem sortCatsDesc_perm (l : List (String × ℚ)) : List.Perm (sortCatsDesc l) l := by
  induction l with
  | nil => simp [sortCatsDesc]
  | cons p rest ih =>
    exact (insertDesc_perm p (sortCatsDesc rest)).trans (ih.cons p)

theorem insertDesc_pairwise (p : String × ℚ) (l : List (String × ℚ))
    (hl : l.Pairwise (fun a b => b.2 ≤ a.2)) :
    (insertDesc p l).Pairwise (fun a b => b.2 ≤ a.2) := by
  induction l with
  | nil => simp [insertDesc]
  | cons q rest ih =>
    rcases List.pairwise_cons.mp hl with ⟨hq, hrest⟩
    by_cases h : q.2 ≤ p.2
    · simp only [insertDesc, if_pos h]
      refine List.pairwise_cons.mpr ⟨?_, hl⟩
      intro x hx
      rcases List.mem_cons.mp hx with rfl | hx2
      · exact h
      · exact le_trans (hq x hx2) h
    · simp only [insertDesc, if_neg h]
      refine List.pairwise_cons.mpr ⟨?_, ih hrest⟩
      intro x hx
      rcases (mem_insertDesc p x rest).mp hx with rfl | hx2
      · exact le_of_not_le h
      · exact hq x hx2

theorem sortCatsDesc_sorted (l : List (String × ℚ)) :
    (sortCatsDesc l).Pairwise (fun a b => b.2 ≤ a.2) := by
  induction l with
  | nil => simp [sortCatsDesc]
  | cons p rest ih => exact insertDesc_pairwise p _ ih

theorem updCat_snd_sum (l : List (String × ℚ)) (k : String) (q : ℚ) :
    ((updCat l k q).map Prod.snd).sum = (l.map Prod.snd).sum + q := by
  induction l with
  | nil => simp [updCat]
  | cons p rest ih =>
    by_cases h : p.1 = k
    · simp [updCat, h]
      ring
    · simp [updCat, h, ih]
      ring

theorem catAggStrict_snd_sum (l : List Record) (cats : List (String × ℚ))
    (acc : List (String × ℚ)) (t : ℚ)
    (hc : catAggStrict l acc = .ok cats) (ht : sumAmounts l = .ok t) :
    (cats.map Prod.snd).sum = (acc.map Prod.snd).sum + t := by
  induction l generalizing acc t with
  | nil =>
    simp only [catAggStrict] at hc
    simp only [sumAmounts] at ht
    cases hc
    cases ht
    simp
  | cons e rest ih =>
    cases hce : coerceAmt e.amount with
    | error m =>
      simp only [catAggStrict] at hc
      rw [hce, exceptBind_err] at hc
      cases hc
    | ok a =>
      simp only [catAggStrict] at hc
      rw [hce, exceptBind_ok] at hc
      simp only [sumAmounts] at ht
      rw [hce, exceptBind_ok] at ht
      cases hcat : e.category with
      | none =>
        rw [hcat] at hc
        cases hc
      | some cname =>
        rw [hcat] at hc
        cases hsr : sumAmounts rest with
        | error m2 =>
          rw [hsr, exceptBind_err] at ht
          cases ht
        | ok tr =>
          rw [hsr, exceptBind_ok] at ht
          have ht2 : Except.ok (a + tr) = (Except.ok t : Except String ℚ) := ht
          cases ht2
          rw [ih (updCat acc cname a) tr hc hsr, updCat_snd_sum]
          ring

theorem abs_rndHalfEven_sub (x : ℚ) : |(rndHalfEven x : ℚ) - x| ≤ 1 / 2 := by
  have h1 : (⌊x⌋ : ℚ) ≤ x := Int.floor_le x
  have h2 : x < ⌊x⌋ + 1 := Int.lt_floor_add_one x
  unfold rndHalfEven
  split_ifs with h3 h4 h5
  · rw [abs_le]
    constructor <;> linarith
  · rw [abs_le]
    push_cast
    constructor <;> linarith
  · have heq : x - ⌊x⌋ = 1 / 2 := le_antisymm (not_lt.mp h4) (not_lt.mp h3)
    rw [abs_le]
    constructor <;> linarith
  · have heq : x - ⌊x⌋ = 1 / 2 := le_antisymm (not_lt.mp h4) (not_lt.mp h3)
    rw [abs_le]
    push_cast
    constructor <;> linarith

theorem abs_round2_sub (x : ℚ) : |round2 x - x| ≤ 1 / 200 := by
  have h := abs_rndHalfEven_sub (x * 100)
  have heq : |round2 x - x| = |(rndHalfEven (x * 100) : ℚ) - x * 100| / 100 := by
    unfold round2
    rw [show (rndHalfEven (x * 100) : ℚ) / 100 - x =
      ((rndHalfEven (x * 100) : ℚ) - x * 100) / 100 from by ring]
    rw [abs_div]
    norm_num
  rw [heq]
  linarith

theorem round2_sum_bound (xs : List ℚ) :
    |(xs.map round2).sum - xs.sum| ≤ (xs.length : ℚ) / 200 := by
  induction xs with
  | nil => simp
  | cons x rest ih =>
    simp only [List.map_cons, List.sum_cons, List.length_cons]
    have h1 := abs_round2_sub x
    calc |round2 x + (rest.map round2).sum - (x + rest.sum)|
        = |(round2 x - x) + ((rest.map round2).sum - rest.sum)| := by ring_nf
      _ ≤ |round2 x - x| + |(rest.map round2).sum - rest.sum| := abs_add _ _
      _ ≤ 1 / 200 + (rest.length : ℚ) / 200 := add_le_add h1 ih
      _ = ((rest.length + 1 : ℕ) : ℚ) / 200 := by push_cast; ring

theorem shares_sum (pairs : List (String × ℚ)) (total : ℚ)
    (ht : (pairs.map Prod.snd).sum = total) (h0 : total ≠ 0) :
    (pairs.map (fun p => p.2 / total * 100)).sum = 100 := by
  have key : ∀ l : List (String × ℚ),
      (l.map (fun p => p.2 / total * 100)).sum = (l.map Prod.snd).sum * (100 / total) := by
    intro l
    induction l with
    | nil => simp
    | cons p rest ih =>
      simp only [List.map_cons, List.sum_cons, ih]
      ring
  rw [key, ht]
  field_simp

theorem getSummary_ok_inv (ym : String) (data : List Record) (r : SummaryResp)
    (h : getSummary ym data = .ok r) :
    ∃ monthly total cats,
      selectMonthly ym data = .ok monthly ∧
      sumAmounts monthly = .ok total ∧
      catAggStrict monthly [] = .ok cats ∧
      r = { year_month := ym, total_entries := monthly.length,
            total_amount := pyFloatStr total,
            categories := (sortCatsDesc cats).map (mkSummaryCat total) } := by
  unfold getSummary at h
  split at h
  · cases h
  · cases hm : selectMonthly ym data with
    | error m =>
      rw [hm, exceptBind_err] at h
      cases h
    | ok monthly =>
      rw [hm, exceptBind_ok] at h
      cases hsum : sumAmounts monthly with
      | error m =>
        rw [hsum, exceptBind_err] at h
        cases h
      | ok total =>
        rw [hsum, exceptBind_ok] at h
        cases hcats : catAggStrict monthly [] with
        | error m =>
          rw [hcats, exceptBind_err] at h
          cases h
        | ok cats =>
          rw [hcats, exceptBind_ok] at h
          refine ⟨monthly, total, cats, rfl, hsum, hcats, ?_⟩
          have h2 : (Except.ok (SummaryResp.mk ym monthly.length (pyFloatStr total)
              ((sortCatsDesc cats).map (mkSummaryCat total))) :
              Except String SummaryResp) = Except.ok r := h
          cases h2
          rfl

/-- C7: whenever GET /summary/{year_month} returns, its categories list is the
image of a list of category/amount pairs sorted descending by amount; when the
period total is nonzero each percentage is that category's share of the total
rounded to 2 decimal places and the rounded percentages sum to 100 within
rounding (at most `n/200` away, `n` the number of categories); when the total
is zero every percentage is the literal string "0". -/
theorem c7_percentage_law (ym : String) (data : List Record) (r : SummaryResp)
    (h : getSummary ym data = .ok r) :
    ∃ (pairs : List (String × ℚ)) (total : ℚ),
      r.total_amount = pyFloatStr total ∧
      r.categories = pairs.map (mkSummaryCat total) ∧
      pairs.Pairwise (fun a b => b.2 ≤ a.2) ∧
      (total = 0 → ∀ sc ∈ r.categories, sc.percentage = "0") ∧
      (total ≠ 0 →
        (∀ sc ∈ r.categories, ∃ p ∈ pairs, sc.category = p.1 ∧
          sc.amount = pyFloatStr p.2 ∧
          sc.percentage = pyFloatStr (round2 (p.2 / total * 100))) ∧
        |(pairs.map (fun p => round2 (p.2 / total * 100))).sum - 100| ≤
          (pairs.length : ℚ) / 200) := by
  obtain ⟨monthly, total, cats, hm, hsum, hcats, hr⟩ := getSummary_ok_inv ym data r h
  subst hr
  refine ⟨sortCatsDesc cats, total, rfl, rfl, sortCatsDesc_sorted cats, ?_, ?_⟩
  · intro h0 sc hsc
    obtain ⟨p, hp, hpe⟩ := List.mem_map.mp hsc
    rw [← hpe]
    simp [mkSummaryCat, h0]
  · intro h0
    constructor
    · intro sc hsc
      obtain ⟨p, hp, hpe⟩ := List.mem_map.mp hsc
      refine ⟨p, hp, ?_, ?_, ?_⟩ <;> rw [← hpe] <;> simp [mkSummaryCat, h0]
    · have hsum_pairs : ((sortCatsDesc cats).map Prod.snd).sum = total := by
        have hperm := (sortCatsDesc_perm cats).map Prod.snd
        rw [hperm.sum_eq]
        have hagg := catAggStrict_snd_sum monthly cats [] total hcats hsum
        simpa using hagg
      have hshare := shares_sum (sortCatsDesc cats) total hsum_pairs h0
      have hbound := round2_sum_bound ((sortCatsDesc cats).map (fun p => p.2 / total * 100))
      rw [List.map_map, hshare, List.length_map] at hbound
      exact hbound

/-- C7 witness: the percentage law at a concrete two-category April store. -/
theorem c7_witness :
    ∃ (pairs : List (String × ℚ)) (total : ℚ),
      c7Out.total_amount = pyFloatStr total ∧
      c7Out.categories = pairs.map (mkSummaryCat total) ∧
      pairs.Pairwise (fun a b => b.2 ≤ a.2) ∧
      (total = 0 → ∀ sc ∈ c7Out.categories, sc.percentage = "0") ∧
      (total ≠ 0 →
        (∀ sc ∈ c7Out.categories, ∃ p ∈ pairs, sc.category = p.1 ∧
          sc.amount = pyFloatStr p.2 ∧
          sc.percentage = pyFloatStr (round2 (p.2 / total * 100))) ∧
        |(pairs.map (fun p => round2 (p.2 / total * 100))).sum - 100| ≤
          (pairs.length : ℚ) / 200) :=
  c7_percentage_law "2023-04" c7Data c7Out (by decide)

end Kakeibo
